import Mathlib

/-!
Shallow embedding of the heuristic table-extraction and legibility pipeline of
the `ocrnasa` repository (files `src/Tesseract_ocr.py` and `ocrv1.py`).

Modelling conventions:
* Pixel coordinates, heights and confidences are modelled as exact rationals
  (`ℚ`); the Python code mixes ints and floats, and every constant appearing
  in the algorithm (`0.8`, `COLUMN_TOLERANCE = 15`, thresholds) is exactly
  representable, so rational arithmetic is a faithful model of the arithmetic
  the code performs on the inputs considered here.
* `pandas.DataFrame` rows become a list of `WordToken`; dataframe filtering,
  sorting and the per-row loops become list operations in the same order as
  the source.
* Python `int(x)` (truncation towards zero) is modelled by `pyInt`.
* `np.argmin` (index of the first minimum) is modelled by `idxOfMin`.
* The `try/except` wrapper of `extract_table_from_image` cannot raise in the
  embedded fragment; the function is a total Lean function into `Option`.
-/

/-- One OCR-recognized word with bounding box and confidence, i.e. one row of
the dataframe produced by `pytesseract.image_to_data`. -/
structure WordToken where
  text : String
  left : ℚ
  top : ℚ
  height : ℚ
  conf : ℚ
deriving DecidableEq, Repr

/-- `TABLE_CONFIDENCE_THRESHOLD = 70` from `Tesseract_ocr.py`. -/
def TABLE_CONFIDENCE_THRESHOLD : ℚ := 70

/-- `COLUMN_TOLERANCE = 15` from `Tesseract_ocr.py`. -/
def COLUMN_TOLERANCE : ℚ := 15

/-- `MIN_TEXT_LENGTH_FOR_LEGIBILITY = 50`, shared by both drivers. -/
def MIN_TEXT_LENGTH_FOR_LEGIBILITY : Nat := 50

/-- Drop leading whitespace characters from a character list. -/
def dropLeadingWS : List Char → List Char
  | [] => []
  | c :: cs => if c.isWhitespace then dropLeadingWS cs else c :: cs

/-- Python `str.strip()`: remove leading and trailing whitespace (restricted
to the ASCII whitespace recognized by `Char.isWhitespace`; the tokens the
claims concern contain none of the exotic Unicode whitespace where Python's
set is larger). -/
def pyStrip (s : String) : String :=
  String.mk ((dropLeadingWS ((dropLeadingWS s.data).reverse)).reverse)

/-- The confidence/blank filter of lines 51-53:
`data[data.conf > THRESHOLD]`, `data[data.text.str.strip() != '']`
(`notna` is subsumed: absent text is not modelled). -/
def tokenKeep (t : WordToken) : Bool :=
  decide (TABLE_CONFIDENCE_THRESHOLD < t.conf) && decide (pyStrip t.text ≠ "")

/-- Reading-order comparison used by `data.sort_values(by=['top', 'left'])`:
top ascending, then left ascending. -/
def tokLE (a b : WordToken) : Bool :=
  decide (a.top < b.top) || (decide (a.top = b.top) && decide (a.left ≤ b.left))

/-- Insert a token into a list sorted by `tokLE`. -/
def insertTok (t : WordToken) : List WordToken → List WordToken
  | [] => [t]
  | u :: us => if tokLE t u then t :: u :: us else u :: insertTok t us

/-- Sort the tokens by (top, left), modelling `sort_values(by=['top','left'])`. -/
def sortTokens : List WordToken → List WordToken
  | [] => []
  | t :: ts => insertTok t (sortTokens ts)

/-- The confidence/blank-filtered token stream in reading order (lines 51-59). -/
def filteredSorted (tokens : List WordToken) : List WordToken :=
  sortTokens (tokens.filter tokenKeep)

/-- Absolute value on the rationals, written out explicitly (Python `abs`). -/
def ratAbs (q : ℚ) : ℚ := if q < 0 then -q else q

/-- Inner scan of the clustering loop (lines 70-75): find the first anchor
within `tol` of `left` and replace it by `(center * n + left) / (n + 1)`,
where `n` is the length of the WHOLE current anchor list
(`len(column_centers)` in the source). Returns `none` when no anchor is
within tolerance. -/
def mergeIntoFirst (tol : ℚ) (n : Nat) (left : ℚ) : List ℚ → Option (List ℚ)
  | [] => none
  | c :: cs =>
    if ratAbs (left - c) ≤ tol then
      some (((c * (n : ℚ) + left) / ((n : ℚ) + 1)) :: cs)
    else
      (mergeIntoFirst tol n left cs).map (fun cs2 => c :: cs2)

/-- One iteration of the clustering loop body (lines 68-77). -/
def clusterStep (tol : ℚ) (centers : List ℚ) (left : ℚ) : List ℚ :=
  match mergeIntoFirst tol centers.length left centers with
  | some cs => cs
  | none => centers ++ [left]

/-- The whole greedy clustering pass over the left positions (lines 65-77). -/
def clusterPass (tol : ℚ) (lefts : List ℚ) : List ℚ :=
  lefts.foldl (clusterStep tol) []

/-- Python `int(q)`: truncation towards zero. -/
def pyInt (q : ℚ) : Int :=
  if q.num < 0 then -(((-q.num).toNat / q.den : Nat) : Int)
  else ((q.num.toNat / q.den : Nat) : Int)

/-- Quantization of an anchor (line 80): `int(x / tol) * tol`. -/
def quantize (tol : ℚ) (x : ℚ) : ℚ :=
  ((pyInt (x / tol) : ℚ)) * tol

/-- Insert a value into an ascending duplicate-free list, skipping it when
already present. -/
def insertSorted (x : ℚ) : List ℚ → List ℚ
  | [] => [x]
  | y :: ys =>
    if x < y then x :: y :: ys
    else if x = y then y :: ys
    else y :: insertSorted x ys

/-- `sorted(list(set(l)))` of line 80: the ascending list of distinct values.
(The repeated `sorted(list(set(...)))` on line 81 is the identity on the
result and is not repeated here.) -/
def sortedDedup (l : List ℚ) : List ℚ :=
  l.foldl (fun acc x => insertSorted x acc) []

/-- The final column anchors of a page (lines 65-81): greedy clustering of the
left positions, then quantization, deduplication and ascending sort. -/
def columnCenters (data : List WordToken) : List ℚ :=
  sortedDedup ((clusterPass COLUMN_TOLERANCE (data.map (fun t => t.left))).map
    (quantize COLUMN_TOLERANCE))

/-- Index of the first minimum of a list (`np.argmin`), 0 on the empty list. -/
def idxOfMin : List ℚ → Nat
  | [] => 0
  | x :: xs =>
    match xs with
    | [] => 0
    | _ :: _ =>
      let j := idxOfMin xs
      if x ≤ xs.getD j 0 then 0 else j + 1

/-- Nearest-anchor assignment of one token (line 87):
`np.argmin(np.abs(np.array(column_centers) - left))`. -/
def argminAbs (centers : List ℚ) (left : ℚ) : Nat :=
  idxOfMin (centers.map (fun c => ratAbs (c - left)))

/-- A token together with its assigned `column_idx` (lines 84-88). -/
abbrev Tok2 := WordToken × Nat

/-- The token stream with `column_idx` stored on each token (lines 84-88). -/
def assignColumns (data : List WordToken) : List Tok2 :=
  data.map (fun t => (t, argminAbs (columnCenters data) t.left))

/-- The new-row test of line 99:
`row_data['top'] > current_row_top + row_data['height'] * 0.8`. -/
def rowTrigger (t : WordToken) (curTop : ℚ) : Bool :=
  decide (curTop + t.height * (4 / 5) < t.top)

/-- `if current_row_words: table_rows.append(current_row_words)` —
flush the in-progress row bucket, skipping an empty one (lines 101, 118). -/
def flushRow (acc : List (List Tok2)) (cur : List Tok2) : List (List Tok2) :=
  if cur.isEmpty then acc else acc ++ [cur]

/-- The row-segmentation loop of lines 96-127, abstracted to produce the
buckets of tokens of each row (`current_row_words` at each flush); the
source builds each row's cell list at the flush point, which `buildRow`
below reproduces on each bucket. -/
def segAux (acc : List (List Tok2)) (cur : List Tok2) (curTop : ℚ) :
    List Tok2 → List (List Tok2)
  | [] => flushRow acc cur
  | t :: ts =>
    if rowTrigger t.1 curTop then segAux (flushRow acc cur) [t] t.1.top ts
    else segAux acc (cur ++ [t]) curTop ts

/-- Row segmentation of the assigned token stream (lines 90-127);
`current_row_top` starts at the first token's top (line 94). -/
def segmentRows : List Tok2 → List (List Tok2)
  | [] => []
  | t :: ts => segAux [] [] t.1.top (t :: ts)

/-- Direct-recursion reformulation of the segmentation loop, used to reason
about `segAux`: returns the remainder of the current row and the list of
subsequent row buckets. -/
def segD (curTop : ℚ) : List Tok2 → List Tok2 × List (List Tok2)
  | [] => ([], [])
  | t :: ts =>
    if rowTrigger t.1 curTop then
      let p := segD t.1.top ts
      ([], (t :: p.1) :: p.2)
    else
      let p := segD curTop ts
      (t :: p.1, p.2)

/-- Well-formedness of a sequence of row buckets relative to the current row
top: each bucket is non-empty, its head token triggered the new row against
the previous current row top, the remaining tokens of the bucket did not
trigger against the bucket head's top, and the bucket head's top becomes the
current row top for the rest. -/
def segOK (curTop : ℚ) : List (List Tok2) → Prop
  | [] => True
  | b :: bs =>
    ∃ u us, b = u :: us ∧ rowTrigger u.1 curTop = true ∧
      (∀ v ∈ us, rowTrigger v.1 u.1.top = false) ∧ segOK u.1.top bs

/-- Writing one token's text into a row's cell list (lines 105-110):
inside the bounds guard, append with a space separator when the cell is
already non-empty, otherwise set it. The `column_idx` is a natural number,
so the `0 <= col_idx` half of the source's guard holds by type. -/
def setCell (row : List String) (i : Nat) (s : String) : List String :=
  if h : i < row.length then
    if row.get ⟨i, h⟩ = "" then row.set i s
    else row.set i (row.get ⟨i, h⟩ ++ " " ++ s)
  else row

/-- Build one output row from a bucket (lines 103-110 and 119-126):
start from `[''] * len(column_centers)` and write each token's text into its
assigned cell. -/
def buildRow (numCenters : Nat) (ws : List Tok2) : List String :=
  ws.foldl (fun r w => setCell r w.2 w.1.text) (List.replicate numCenters "")

/-- The assembled grid of a page before padding (`table_rows` at line 129). -/
def tableGrid (tokens : List WordToken) : List (List String) :=
  (segmentRows (assignColumns (filteredSorted tokens))).map
    (buildRow (columnCenters (filteredSorted tokens)).length)

/-- `num_cols = max(len(row) for row in table_rows)` (line 131); 0 when the
grid is empty, matching the source's `if table_rows else 0`. -/
def gridNumCols (tokens : List WordToken) : Nat :=
  ((tableGrid tokens).map List.length).foldl Nat.max 0

/-- Right-padding of a row with empty strings up to `numCols` (line 134):
`row + [''] * (num_cols - len(row))`. -/
def padRow (numCols : Nat) (r : List String) : List String :=
  r ++ List.replicate (numCols - r.length) ""

/-- `extract_table_from_image` (lines 34-149): the full per-page heuristic
table extraction, returning the padded rectangular grid, or `none` when no
token survives filtering, the grid is empty, or the grid has at most one row
or one column. -/
def extract_table_from_image (tokens : List WordToken) :
    Option (List (List String)) :=
  let data := filteredSorted tokens
  if data.isEmpty then none
  else
    let rows := tableGrid tokens
    if rows.isEmpty then none
    else
      let numCols := gridNumCols tokens
      let padded := rows.map (padRow numCols)
      if 1 < padded.length ∧ 1 < numCols then some padded else none

/-- Per-page record built by `extract_text_from_pdf` in `Tesseract_ocr.py`
(lines 235-241). -/
structure PageRecord where
  page_number : Nat
  extracted_text : String
  is_legible : Bool
  has_table : Bool
  table_data : Option (List (List String))
deriving DecidableEq, Repr

/-- Per-page processing of `Tesseract_ocr.py` lines 195-241, taking the
already-cleaned whole-page OCR text and the page's word tokens as inputs.
`page_text` is set to the cleaned text before the legibility test (line 199)
and is stored in the record in both branches; table extraction runs only in
the legible branch. -/
def processPageTesseract (minLen : Nat) (pageNumber : Nat)
    (cleanedText : String) (pageTokens : List WordToken) : PageRecord :=
  if cleanedText.length < minLen then
    { page_number := pageNumber
      extracted_text := cleanedText
      is_legible := false
      has_table := false
      table_data := none }
  else
    let td := extract_table_from_image pageTokens
    { page_number := pageNumber
      extracted_text := cleanedText
      is_legible := true
      has_table := td.isSome
      table_data := td }

/-- Per-page record built by `ocrv1.py` (lines 73-83). -/
structure PageRecordV1 where
  page_number : Nat
  extracted_text : String
  is_legible : Bool
deriving DecidableEq, Repr

/-- Per-page processing of `ocrv1.py` lines 70-84: below the threshold the
stored text is the empty string, otherwise the cleaned text. -/
def processPageV1 (minLen : Nat) (pageNumber : Nat) (cleanedText : String) :
    PageRecordV1 :=
  if cleanedText.length < minLen then
    { page_number := pageNumber, extracted_text := "", is_legible := false }
  else
    { page_number := pageNumber, extracted_text := cleanedText, is_legible := true }

/-- The spec's version of the clustering update, for comparison with
`clusterStep`: each anchor carries the count of left-positions merged into it
so far, and a merge updates the center to the equally-weighted running mean
`(center * count + left) / (count + 1)` of those positions. -/
def specMergeIntoFirst (tol : ℚ) (left : ℚ) :
    List (ℚ × Nat) → Option (List (ℚ × Nat))
  | [] => none
  | a :: as' =>
    if ratAbs (left - a.1) ≤ tol then
      some ((((a.1 * (a.2 : ℚ) + left) / ((a.2 : ℚ) + 1)), a.2 + 1) :: as')
    else
      (specMergeIntoFirst tol left as').map (fun r => a :: r)

/-- One step of the spec's clustering pass (running mean per anchor). -/
def specClusterStep (tol : ℚ) (anchors : List (ℚ × Nat)) (left : ℚ) :
    List (ℚ × Nat) :=
  match specMergeIntoFirst tol left anchors with
  | some r => r
  | none => anchors ++ [(left, 1)]

/-- The spec's clustering pass: anchors with per-anchor merge counts. -/
def specClusterPass (tol : ℚ) (lefts : List ℚ) : List (ℚ × Nat) :=
  lefts.foldl (specClusterStep tol) []

/-- The four-token scenario of the spec: A(10,100), B(200,100), C(10,130),
D(200,130), each of height 20 and confidence 90. -/
def tokA : WordToken := { text := "A", left := 10, top := 100, height := 20, conf := 90 }

/-- Token B of the four-token scenario. -/
def tokB : WordToken := { text := "B", left := 200, top := 100, height := 20, conf := 90 }

/-- Token C of the four-token scenario. -/
def tokC : WordToken := { text := "C", left := 10, top := 130, height := 20, conf := 90 }

/-- Token D of the four-token scenario. -/
def tokD : WordToken := { text := "D", left := 200, top := 130, height := 20, conf := 90 }

/-- Three tokens whose reading order is E(left 10), F(left 200), G(left 20):
G merges into the anchor created from E after a second anchor exists. -/
def tokE : WordToken := { text := "E", left := 10, top := 100, height := 20, conf := 90 }

/-- Token F of the three-token clustering scenario. -/
def tokF : WordToken := { text := "F", left := 200, top := 100, height := 20, conf := 90 }

/-- Token G of the three-token clustering scenario. -/
def tokG : WordToken := { text := "G", left := 20, top := 101, height := 20, conf := 90 }

/-- A page text of length 49, one character below the default threshold. -/
def text49 : String := String.mk (List.replicate 49 'x')

/-- A page text of length exactly the default threshold 50. -/
def text50 : String := String.mk (List.replicate 50 'x')

/-- Scanning lemma for the clustering inner loop: when every anchor in `pre`
is out of tolerance and `c` is within tolerance, the scan stops at `c` and
rewrites it with the source's update formula, parameterized by `n`. -/
theorem mergeIntoFirst_found (tol : ℚ) (n : Nat) (left : ℚ) :
    ∀ (pre : List ℚ) (c : ℚ) (post : List ℚ),
      (∀ c2 ∈ pre, ¬ ratAbs (left - c2) ≤ tol) → ratAbs (left - c) ≤ tol →
      mergeIntoFirst tol n left (pre ++ c :: post) =
        some (pre ++ ((c * (n : ℚ) + left) / ((n : ℚ) + 1)) :: post) := by
  intro pre
  induction pre with
  | nil =>
    intro c post _ hc
    simp [mergeIntoFirst, hc]
  | cons c2 pre ih =>
    intro c post hpre hc
    have h2 : ¬ ratAbs (left - c2) ≤ tol := hpre c2 (by simp)
    simp only [List.cons_append, mergeIntoFirst, if_neg h2, List.append_eq]
    rw [ih c post (fun x hx => hpre x (by simp [hx])) hc]
    rfl

/-- C1 (counterexample): in the clustering pass over the reading-order left
positions 10, 200, 20, the source merges the third token into the first
anchor using `len(column_centers) = 2`, producing `(10 * 2 + 20) / 3 = 40/3`,
whereas the claim's equally-weighted running mean over the left-positions
merged into that anchor (one prior position) demands `(10 * 1 + 20) / 2 = 15`;
the two values differ, refuting the claim at this input. -/
theorem C1_running_mean_counterexample :
    clusterPass COLUMN_TOLERANCE
        ((filteredSorted [tokE, tokF, tokG]).map (fun t => t.left)) =
      [40 / 3, 200] ∧
    (specClusterPass 15 [10, 200, 20]).map Prod.fst = [15, 200] ∧
    ((10 : ℚ) * 1 + 20) / (1 + 1) = 15 ∧
    (40 / 3 : ℚ) ≠ 15 := by
  with_unfolding_all decide

/-- C1 (amended): when a token with position `left` merges into the first
anchor `c` within tolerance (all earlier anchors being out of tolerance), the
anchor is updated to `(c * L + left) / (L + 1)` where `L` is the current
total number of anchors in the list (`len(column_centers)`), not the number
of left-positions previously merged into that anchor. -/
theorem C1_center_update_amended (tol left c : ℚ) (pre post : List ℚ)
    (hpre : ∀ c2 ∈ pre, ¬ ratAbs (left - c2) ≤ tol)
    (hc : ratAbs (left - c) ≤ tol) :
    clusterStep tol (pre ++ c :: post) left =
      pre ++ ((c * (((pre ++ c :: post).length : Nat) : ℚ) + left) /
        ((((pre ++ c :: post).length : Nat) : ℚ) + 1)) :: post := by
  unfold clusterStep
  rw [mergeIntoFirst_found tol ((pre ++ c :: post).length) left pre c post hpre hc]

/-- C1 witness: the amended update at tolerance 15, anchors `[200, 10]` and
incoming left 20. -/
theorem C1_center_update_amended_witness :
    clusterStep 15 ([200] ++ 10 :: []) 20 =
      [200] ++ ((10 * ((([200] ++ 10 :: [] : List ℚ).length : Nat) : ℚ) + 20) /
        (((([200] ++ 10 :: [] : List ℚ).length : Nat) : ℚ) + 1)) :: [] :=
  C1_center_update_amended 15 20 10 [200] []
    (by with_unfolding_all decide) (by with_unfolding_all decide)

/-- C2: on the four tokens A(10,100), B(200,100), C(10,130), D(200,130) with
height 20 and confidence 90, the pipeline infers exactly 2 column anchors and
2 rows and extracts the table [["A","B"], ["C","D"]]. -/
theorem C2_concrete_table :
    (columnCenters (filteredSorted [tokA, tokB, tokC, tokD])).length = 2 ∧
    (tableGrid [tokA, tokB, tokC, tokD]).length = 2 ∧
    extract_table_from_image [tokA, tokB, tokC, tokD] =
      some [["A", "B"], ["C", "D"]] := by
  with_unfolding_all decide

/-- C3 (counterexample): a page whose cleaned text has length 49 with
threshold 50 is marked illegible by `Tesseract_ocr.py`, but the stored
per-page text is the cleaned text itself, not the empty string. -/
theorem C3_stored_text_counterexample :
    (processPageTesseract MIN_TEXT_LENGTH_FOR_LEGIBILITY 1 text49 []).is_legible
        = false ∧
    (processPageTesseract MIN_TEXT_LENGTH_FOR_LEGIBILITY 1 text49 []).extracted_text
        = text49 ∧
    text49 ≠ "" := by
  with_unfolding_all decide

/-- C3 (amended): for every page whose cleaned text is shorter than the
threshold, both drivers mark the page illegible and table extraction is not
attempted (the Tesseract driver's record has no table and is independent of
the page's word tokens); the stored text is the empty string in `ocrv1.py`
but the cleaned text itself in `Tesseract_ocr.py`. -/
theorem C3_illegible_page_amended (minLen n : Nat) (s : String)
    (ts : List WordToken) (h : s.length < minLen) :
    (processPageTesseract minLen n s ts).is_legible = false ∧
    (processPageTesseract minLen n s ts).extracted_text = s ∧
    (processPageTesseract minLen n s ts).has_table = false ∧
    (processPageTesseract minLen n s ts).table_data = none ∧
    (∀ ts2 : List WordToken,
      processPageTesseract minLen n s ts = processPageTesseract minLen n s ts2) ∧
    (processPageV1 minLen n s).is_legible = false ∧
    (processPageV1 minLen n s).extracted_text = "" := by
  unfold processPageTesseract processPageV1
  simp [h]

/-- C3 witness: the amended statement at the 49-character page text with
threshold 50. -/
theorem C3_illegible_page_amended_witness :
    (processPageTesseract 50 1 text49 []).is_legible = false ∧
    (processPageTesseract 50 1 text49 []).extracted_text = text49 ∧
    (processPageTesseract 50 1 text49 []).has_table = false ∧
    (processPageTesseract 50 1 text49 []).table_data = none ∧
    (∀ ts2 : List WordToken,
      processPageTesseract 50 1 text49 [] = processPageTesseract 50 1 text49 ts2) ∧
    (processPageV1 50 1 text49).is_legible = false ∧
    (processPageV1 50 1 text49).extracted_text = "" :=
  C3_illegible_page_amended 50 1 text49 [] (by decide)

/-- C6: legibility is decided purely by comparing the cleaned text's length
with the threshold, in both drivers: a text one character short of the
threshold is illegible, a text of exactly the threshold's length is legible,
and any two texts of equal length classify identically. -/
theorem C6_legibility_threshold (minLen n : Nat) (ts : List WordToken)
    (s s2 : String) (h1 : s.length + 1 = minLen) (h2 : s2.length = minLen) :
    (processPageTesseract minLen n s ts).is_legible = false ∧
    (processPageV1 minLen n s).is_legible = false ∧
    (processPageTesseract minLen n s2 ts).is_legible = true ∧
    (processPageV1 minLen n s2).is_legible = true ∧
    (∀ u u2 : String, u.length = u2.length →
      (processPageTesseract minLen n u ts).is_legible
        = (processPageTesseract minLen n u2 ts).is_legible ∧
      (processPageV1 minLen n u).is_legible = (processPageV1 minLen n u2).is_legible) := by
  have hlt : s.length < minLen := by omega
  have hge : ¬ s2.length < minLen := by omega
  refine ⟨?_, ?_, ?_, ?_, ?_⟩
  · simp [processPageTesseract, hlt]
  · simp [processPageV1, hlt]
  · simp [processPageTesseract, hge]
  · simp [processPageV1, hge]
  · intro u u2 hu
    unfold processPageTesseract processPageV1
    rw [hu]
    by_cases hc : u2.length < minLen <;> simp [hc]

/-- C6 witness: the threshold boundary at the default threshold 50, with the
49- and 50-character page texts. -/
theorem C6_legibility_threshold_witness :
    (processPageTesseract 50 1 text49 []).is_legible = false ∧
    (processPageV1 50 1 text49).is_legible = false ∧
    (processPageTesseract 50 1 text50 []).is_legible = true ∧
    (processPageV1 50 1 text50).is_legible = true ∧
    (∀ u u2 : String, u.length = u2.length →
      (processPageTesseract 50 1 u []).is_legible
        = (processPageTesseract 50 1 u2 []).is_legible ∧
      (processPageV1 50 1 u).is_legible = (processPageV1 50 1 u2).is_legible) :=
  C6_legibility_threshold 50 1 [] text49 text50 (by decide) (by decide)

/-- C8: table extraction never fails: it is a total function into an option,
and whenever the confidence/blank filter leaves no token (blank page or all
tokens filtered out), it returns the absent verdict `none`. -/
theorem C8_no_table_on_empty_tokens (tokens : List WordToken)
    (h : tokens.filter tokenKeep = []) :
    extract_table_from_image tokens = none := by
  unfold extract_table_from_image filteredSorted
  rw [h]
  simp [sortTokens]

/-- C8 witness: a blank-text token and a low-confidence token are both
filtered out, and extraction returns the absent verdict. -/
theorem C8_no_table_on_empty_tokens_witness :
    extract_table_from_image
      [{ text := " ", left := 1, top := 1, height := 1, conf := 90 },
       { text := "x", left := 1, top := 1, height := 1, conf := 50 }] = none :=
  C8_no_table_on_empty_tokens _ (by with_unfolding_all decide)

/-- Inserting into a sorted token list never yields the empty list. -/
theorem insertTok_ne_nil (t : WordToken) (l : List WordToken) :
    insertTok t l ≠ [] := by
  cases l with
  | nil => simp [insertTok]
  | cons u us =>
    unfold insertTok
    by_cases h : tokLE t u = true <;> simp [h]

/-- The reading-order sort is empty exactly on the empty input. -/
theorem sortTokens_eq_nil_iff (l : List WordToken) :
    sortTokens l = [] ↔ l = [] := by
  cases l with
  | nil => simp [sortTokens]
  | cons t ts =>
    simp only [sortTokens]
    exact ⟨fun h => absurd h (insertTok_ne_nil t (sortTokens ts)), fun h => by simp at h⟩

/-- A successful inner-loop merge keeps the anchor list non-empty. -/
theorem mergeIntoFirst_some_ne_nil (tol : ℚ) (n : Nat) (left : ℚ) :
    ∀ (cs cs2 : List ℚ), mergeIntoFirst tol n left cs = some cs2 → cs2 ≠ [] := by
  intro cs
  induction cs with
  | nil => intro cs2 h; simp [mergeIntoFirst] at h
  | cons c cs ih =>
    intro cs2 h
    unfold mergeIntoFirst at h
    by_cases hc : ratAbs (left - c) ≤ tol
    · rw [if_pos hc] at h
      cases h
      simp
    · rw [if_neg hc] at h
      cases hm : mergeIntoFirst tol n left cs with
      | none => rw [hm] at h; simp at h
      | some cs3 => rw [hm] at h; simp at h; rw [← h]; simp

/-- One clustering step never yields the empty anchor list. -/
theorem clusterStep_ne_nil (tol : ℚ) (centers : List ℚ) (left : ℚ) :
    clusterStep tol centers left ≠ [] := by
  unfold clusterStep
  cases hm : mergeIntoFirst tol centers.length left centers with
  | none => simp
  | some cs => exact mergeIntoFirst_some_ne_nil tol centers.length left centers cs hm

/-- Folding clustering steps over any lefts preserves non-emptiness. -/
theorem foldl_clusterStep_ne_nil (tol : ℚ) :
    ∀ (lefts : List ℚ) (acc : List ℚ), acc ≠ [] →
      lefts.foldl (clusterStep tol) acc ≠ [] := by
  intro lefts
  induction lefts with
  | nil => intro acc h; simpa using h
  | cons x xs ih =>
    intro acc _
    simp only [List.foldl_cons]
    exact ih (clusterStep tol acc x) (clusterStep_ne_nil tol acc x)

/-- The clustering pass over a non-empty left-position stream produces at
least one anchor. -/
theorem clusterPass_ne_nil (tol : ℚ) (lefts : List ℚ) (h : lefts ≠ []) :
    clusterPass tol lefts ≠ [] := by
  cases lefts with
  | nil => exact absurd rfl h
  | cons x xs =>
    unfold clusterPass
    simp only [List.foldl_cons]
    exact foldl_clusterStep_ne_nil tol xs (clusterStep tol [] x)
      (clusterStep_ne_nil tol [] x)

/-- Sorted-insertion never yields the empty list. -/
theorem insertSorted_ne_nil (x : ℚ) (l : List ℚ) : insertSorted x l ≠ [] := by
  cases l with
  | nil => simp [insertSorted]
  | cons y ys =>
    unfold insertSorted
    by_cases h1 : x < y
    · simp [h1]
    · by_cases h2 : x = y <;> simp [h1, h2]

/-- Deduplicating-and-sorting a non-empty list yields a non-empty list. -/
theorem sortedDedup_ne_nil (l : List ℚ) (h : l ≠ []) : sortedDedup l ≠ [] := by
  cases l with
  | nil => exact absurd rfl h
  | cons x xs =>
    unfold sortedDedup
    simp only [List.foldl_cons]
    have step : ∀ (ys : List ℚ) (acc : List ℚ), acc ≠ [] →
        ys.foldl (fun acc2 x2 => insertSorted x2 acc2) acc ≠ [] := by
      intro ys
      induction ys with
      | nil => intro acc hacc; simpa using hacc
      | cons y ys2 ih =>
        intro acc _
        simp only [List.foldl_cons]
        exact ih (insertSorted y acc) (insertSorted_ne_nil y acc)
    exact step xs (insertSorted x []) (insertSorted_ne_nil x [])

/-- A non-empty filtered token stream yields a non-empty anchor list. -/
theorem columnCenters_ne_nil (data : List WordToken) (h : data ≠ []) :
    columnCenters data ≠ [] := by
  unfold columnCenters
  apply sortedDedup_ne_nil
  intro hmap
  rw [List.map_eq_nil_iff] at hmap
  exact clusterPass_ne_nil COLUMN_TOLERANCE (data.map (fun t => t.left))
    (by simpa using h) hmap

/-- The first-minimum index of a non-empty list is a valid index. -/
theorem idxOfMin_lt (l : List ℚ) (h : l ≠ []) : idxOfMin l < l.length := by
  induction l with
  | nil => exact absurd rfl h
  | cons x xs ih =>
    cases xs with
    | nil => simp [idxOfMin]
    | cons y ys =>
      have hy := ih (by simp)
      have hunf : idxOfMin (x :: y :: ys) =
          if x ≤ (y :: ys).getD (idxOfMin (y :: ys)) 0 then 0
          else idxOfMin (y :: ys) + 1 := rfl
      rw [hunf]
      by_cases hx : x ≤ (y :: ys).getD (idxOfMin (y :: ys)) 0
      · rw [if_pos hx]; simp
      · rw [if_neg hx]
        simp only [List.length_cons] at hy ⊢
        omega

/-- Nearest-anchor assignment against a non-empty anchor list is in range. -/
theorem argminAbs_lt (centers : List ℚ) (left : ℚ) (h : centers ≠ []) :
    argminAbs centers left < centers.length := by
  unfold argminAbs
  have hm : centers.map (fun c => ratAbs (c - left)) ≠ [] := by
    simpa using h
  have := idxOfMin_lt _ hm
  simpa using this

/-- C9: whenever the confidence/blank filter keeps at least one token, the
deduplicated anchor list is non-empty and nearest-anchor assignment gives
every token a column index strictly below the number of anchors, so the
bounds guard `0 <= col_idx < len(column_centers)` always holds (the lower
bound holds by the index being a natural number). -/
theorem C9_column_index_in_range (tokens : List WordToken)
    (h : tokens.filter tokenKeep ≠ []) :
    columnCenters (filteredSorted tokens) ≠ [] ∧
    ∀ p ∈ assignColumns (filteredSorted tokens),
      p.2 < (columnCenters (filteredSorted tokens)).length := by
  have hdata : filteredSorted tokens ≠ [] := by
    unfold filteredSorted
    rw [Ne, sortTokens_eq_nil_iff]
    exact h
  have hcc := columnCenters_ne_nil (filteredSorted tokens) hdata
  refine ⟨hcc, ?_⟩
  intro p hp
  unfold assignColumns at hp
  obtain ⟨t, _, rfl⟩ := List.mem_map.mp hp
  exact argminAbs_lt _ _ hcc

/-- C9 witness: on the four-token scenario the anchor list is non-empty and
the first assigned pair's column index is in range. -/
theorem C9_column_index_in_range_witness :
    columnCenters (filteredSorted [tokA, tokB, tokC, tokD]) ≠ [] ∧
    (tokA, 0).2 < (columnCenters (filteredSorted [tokA, tokB, tokC, tokD])).length :=
  ⟨(C9_column_index_in_range [tokA, tokB, tokC, tokD]
      (by with_unfolding_all decide)).1,
   (C9_column_index_in_range [tokA, tokB, tokC, tokD]
      (by with_unfolding_all decide)).2 (tokA, 0) (by with_unfolding_all decide)⟩

/-- The starting value is below a `Nat.max` fold. -/
theorem self_le_foldl_max : ∀ (l : List Nat) (a : Nat), a ≤ l.foldl Nat.max a := by
  intro l
  induction l with
  | nil => intro a; simp
  | cons x xs ih =>
    intro a
    simp only [List.foldl_cons]
    exact le_trans (Nat.le_max_left a x) (ih (Nat.max a x))

/-- Every member of a list is below its `Nat.max` fold. -/
theorem mem_le_foldl_max :
    ∀ (l : List Nat) (a x : Nat), x ∈ l → x ≤ l.foldl Nat.max a := by
  intro l
  induction l with
  | nil => intro a x hx; simp at hx
  | cons y ys ih =>
    intro a x hx
    simp only [List.foldl_cons]
    rcases List.mem_cons.mp hx with hxy | hxs
    · subst hxy
      exact le_trans (Nat.le_max_right a x) (self_le_foldl_max ys (Nat.max a x))
    · exact ih (Nat.max a y) x hxs

/-- Inversion of a successful extraction: the returned table is the padded
grid, the grid has more than one row and more than one column, and the
filtered token stream is non-empty. -/
theorem extract_some_inv (tokens : List WordToken) (t : List (List String))
    (h : extract_table_from_image tokens = some t) :
    t = (tableGrid tokens).map (padRow (gridNumCols tokens)) ∧
    1 < (tableGrid tokens).length ∧ 1 < gridNumCols tokens ∧
    filteredSorted tokens ≠ [] := by
  unfold extract_table_from_image at h
  by_cases hd : (filteredSorted tokens).isEmpty
  · rw [if_pos hd] at h
    simp at h
  · rw [if_neg hd] at h
    by_cases hr : (tableGrid tokens).isEmpty
    · rw [if_pos hr] at h
      simp at h
    · rw [if_neg hr] at h
      by_cases hcond : 1 < ((tableGrid tokens).map (padRow (gridNumCols tokens))).length
          ∧ 1 < gridNumCols tokens
      · rw [if_pos hcond] at h
        cases h
        rw [List.length_map] at hcond
        exact ⟨rfl, hcond.1, hcond.2, by simpa using hd⟩
      · rw [if_neg hcond] at h
        simp at h

/-- Converse construction: with more than one grid row and more than one
column, extraction succeeds and returns the padded grid. -/
theorem extract_some_of (tokens : List WordToken)
    (h1 : 1 < (tableGrid tokens).length) (h2 : 1 < gridNumCols tokens) :
    extract_table_from_image tokens =
      some ((tableGrid tokens).map (padRow (gridNumCols tokens))) := by
  have hgr : tableGrid tokens ≠ [] := by
    intro he
    rw [he] at h1
    simp at h1
  have hd : ¬ (filteredSorted tokens).isEmpty := by
    intro he
    apply hgr
    rw [List.isEmpty_iff] at he
    unfold tableGrid assignColumns
    rw [he]
    rfl
  unfold extract_table_from_image
  rw [if_neg hd, if_neg (by simpa [List.isEmpty_iff] using hgr)]
  rw [if_pos (by rw [List.length_map]; exact ⟨h1, h2⟩)]

/-- C4: extraction returns a table exactly when the assembled grid has
strictly more than one row and strictly more than one column; with at most
one row or at most one column the verdict is absent. -/
theorem C4_table_verdict_iff (tokens : List WordToken) :
    (∃ t, extract_table_from_image tokens = some t) ↔
      (1 < (tableGrid tokens).length ∧ 1 < gridNumCols tokens) := by
  constructor
  · rintro ⟨t, ht⟩
    obtain ⟨_, h1, h2, _⟩ := extract_some_inv tokens t ht
    exact ⟨h1, h2⟩
  · rintro ⟨h1, h2⟩
    exact ⟨_, extract_some_of tokens h1 h2⟩

/-- C5: every row of a returned table has length exactly the table's column
count (the maximum row length of the assembled grid), shorter rows having
been right-padded with empty strings. -/
theorem C5_uniform_row_width (tokens : List WordToken) (t : List (List String))
    (h : extract_table_from_image tokens = some t) :
    ∀ r ∈ t, r.length = gridNumCols tokens := by
  obtain ⟨ht, _, _, _⟩ := extract_some_inv tokens t h
  subst ht
  intro r hr
  obtain ⟨r0, hr0, rfl⟩ := List.mem_map.mp hr
  have hle : r0.length ≤ gridNumCols tokens := by
    unfold gridNumCols
    exact mem_le_foldl_max _ 0 r0.length
      (List.mem_map.mpr ⟨r0, hr0, rfl⟩)
  unfold padRow
  simp only [List.length_append, List.length_replicate]
  omega

/-- C5 witness: both rows of the four-token scenario's table have the
table's column count as length. -/
theorem C5_uniform_row_width_witness :
    extract_table_from_image [tokA, tokB, tokC, tokD] =
      some [["A", "B"], ["C", "D"]] ∧
    (["A", "B"] : List String).length = gridNumCols [tokA, tokB, tokC, tokD] ∧
    (["C", "D"] : List String).length = gridNumCols [tokA, tokB, tokC, tokD] :=
  ⟨by with_unfolding_all decide,
   C5_uniform_row_width [tokA, tokB, tokC, tokD] [["A", "B"], ["C", "D"]]
     (by with_unfolding_all decide) ["A", "B"] (by simp),
   C5_uniform_row_width [tokA, tokB, tokC, tokD] [["A", "B"], ["C", "D"]]
     (by with_unfolding_all decide) ["C", "D"] (by simp)⟩

/-- Flushing into an accumulator is appending the flush of an empty one. -/
theorem flushRow_eq_append (acc : List (List Tok2)) (cur : List Tok2) :
    flushRow acc cur = acc ++ flushRow [] cur := by
  unfold flushRow
  cases cur <;> simp

/-- The accumulator-style segmentation loop agrees with the direct-recursion
reformulation `segD`. -/
theorem segAux_eq_segD :
    ∀ (rest : List Tok2) (acc : List (List Tok2)) (cur : List Tok2) (curTop : ℚ),
      segAux acc cur curTop rest =
        acc ++ flushRow [] (cur ++ (segD curTop rest).1) ++ (segD curTop rest).2 := by
  intro rest
  induction rest with
  | nil =>
    intro acc cur curTop
    simp only [segAux, segD, List.append_nil]
    exact flushRow_eq_append acc cur
  | cons t ts ih =>
    intro acc cur curTop
    by_cases htr : rowTrigger t.1 curTop
    · simp only [segAux, segD, htr, if_pos]
      rw [ih (flushRow acc cur) [t] t.1.top]
      rw [flushRow_eq_append acc cur]
      have hne : flushRow [] ([t] ++ (segD t.1.top ts).1) =
          [t :: (segD t.1.top ts).1] := by
        unfold flushRow
        simp
      rw [hne]
      simp
    · simp only [segAux, segD, htr, if_neg, Bool.false_eq_true, not_false_iff]
      rw [ih acc (cur ++ [t]) curTop]
      simp

/-- The two components of `segD` concatenate back to the input stream. -/
theorem segD_join :
    ∀ (l : List Tok2) (curTop : ℚ),
      (segD curTop l).1 ++ ((segD curTop l).2).flatten = l := by
  intro l
  induction l with
  | nil => intro curTop; simp [segD]
  | cons t ts ih =>
    intro curTop
    by_cases htr : rowTrigger t.1 curTop
    · simp only [segD, htr, if_pos]
      simpa using ih t.1.top
    · simp only [segD, htr, if_neg, Bool.false_eq_true, not_false_iff]
      simpa using ih curTop

/-- Joining the flush of an empty accumulator returns the bucket. -/
theorem join_flushRow_nil (l : List Tok2) : (flushRow [] l).flatten = l := by
  unfold flushRow
  cases l <;> simp

/-- C7 partition core: row segmentation concatenates back to its input, so
every token lands in exactly one row bucket. -/
theorem segmentRows_join (l : List Tok2) : (segmentRows l).flatten = l := by
  cases l with
  | nil => simp [segmentRows]
  | cons t ts =>
    simp only [segmentRows]
    rw [segAux_eq_segD (t :: ts) [] [] t.1.top]
    simp only [List.nil_append, List.flatten_append, join_flushRow_nil]
    exact segD_join (t :: ts) t.1.top

/-- No token of the first `segD` component triggers against the current row
top, and the subsequent buckets are well-segmented. -/
theorem segD_ok :
    ∀ (l : List Tok2) (curTop : ℚ),
      (∀ u ∈ (segD curTop l).1, rowTrigger u.1 curTop = false) ∧
      segOK curTop (segD curTop l).2 := by
  intro l
  induction l with
  | nil => intro curTop; simp [segD, segOK]
  | cons t ts ih =>
    intro curTop
    by_cases htr : rowTrigger t.1 curTop
    · simp only [segD, htr, if_pos]
      refine ⟨by simp, ?_⟩
      refine ⟨t, (segD t.1.top ts).1, rfl, htr, (ih t.1.top).1, ?_⟩
      exact (ih t.1.top).2
    · simp only [segD, htr, if_neg, Bool.false_eq_true, not_false_iff]
      refine ⟨?_, (ih curTop).2⟩
      intro u hu
      rcases List.mem_cons.mp hu with h | h
      · subst h
        simpa using htr
      · exact (ih curTop).1 u h

/-- Every bucket in the second `segD` component is non-empty. -/
theorem segD_snd_ne_nil :
    ∀ (l : List Tok2) (curTop : ℚ) (b : List Tok2),
      b ∈ (segD curTop l).2 → b ≠ [] := by
  intro l
  induction l with
  | nil => intro curTop b hb; simp [segD] at hb
  | cons t ts ih =>
    intro curTop b hb
    by_cases htr : rowTrigger t.1 curTop
    · simp only [segD, htr, if_pos] at hb
      rcases List.mem_cons.mp hb with h | h
      · subst h; simp
      · exact ih t.1.top b h
    · simp only [segD, htr, if_neg, Bool.false_eq_true, not_false_iff] at hb
      exact ih curTop b hb

/-- Every bucket produced by row segmentation is non-empty. -/
theorem segmentRows_bucket_ne_nil (l : List Tok2) (b : List Tok2)
    (hb : b ∈ segmentRows l) : b ≠ [] := by
  cases l with
  | nil => simp [segmentRows] at hb
  | cons t ts =>
    simp only [segmentRows] at hb
    rw [segAux_eq_segD (t :: ts) [] [] t.1.top] at hb
    simp only [List.nil_append, List.mem_append] at hb
    rcases hb with h | h
    · unfold flushRow at h
      by_cases he : (segD t.1.top (t :: ts)).1.isEmpty
      · rw [if_pos he] at h
        simp at h
      · rw [if_neg he] at h
        rcases List.mem_singleton.mp h with rfl
        simpa [List.isEmpty_iff] using he
    · exact segD_snd_ne_nil (t :: ts) t.1.top b h

/-- Every token of a segmentation bucket comes from the input stream. -/
theorem segmentRows_bucket_subset (l : List Tok2) (b : List Tok2)
    (hb : b ∈ segmentRows l) : ∀ u ∈ b, u ∈ l := by
  intro u hu
  rw [← segmentRows_join l]
  exact List.mem_flatten.mpr ⟨b, hb, hu⟩

/-- Membership is preserved by sorted insertion of tokens. -/
theorem mem_insertTok (t u : WordToken) :
    ∀ l : List WordToken, u ∈ insertTok t l ↔ u = t ∨ u ∈ l := by
  intro l
  induction l with
  | nil => simp [insertTok]
  | cons v vs ih =>
    unfold insertTok
    by_cases h : tokLE t v = true
    · simp [h]
    · simp only [h, Bool.false_eq_true, if_neg, not_false_iff, List.mem_cons, ih]
      tauto

/-- Membership is preserved by the reading-order sort. -/
theorem mem_sortTokens (u : WordToken) :
    ∀ l : List WordToken, u ∈ sortTokens l ↔ u ∈ l := by
  intro l
  induction l with
  | nil => simp [sortTokens]
  | cons t ts ih =>
    simp only [sortTokens, mem_insertTok, ih, List.mem_cons]

/-- Every token of the filtered sorted stream passes the filter and comes
from the input. -/
theorem mem_filteredSorted (tokens : List WordToken) (u : WordToken)
    (hu : u ∈ filteredSorted tokens) : u ∈ tokens ∧ tokenKeep u = true := by
  unfold filteredSorted at hu
  rw [mem_sortTokens] at hu
  exact ⟨(List.mem_filter.mp hu).1, (List.mem_filter.mp hu).2⟩

/-- C7: row segmentation partitions the reading-order token stream: its
buckets concatenate back to the stream (every token is in exactly one row),
and when the stream is non-empty, the first bucket starts at the first
token, tokens within a bucket never satisfy the new-row test against the
bucket head's top (the `currentRowTop`), and each later bucket starts with
exactly a token satisfying `token.top > currentRowTop + token.height * 0.8`
against the previous bucket head's top, which then becomes the new
`currentRowTop`; the final in-progress row is flushed. -/
theorem C7_row_segmentation (tokens : List WordToken)
    (hpos : ∀ t ∈ tokens, 0 < t.height) :
    (segmentRows (assignColumns (filteredSorted tokens))).flatten =
      assignColumns (filteredSorted tokens) ∧
    ∀ t2 ts2, assignColumns (filteredSorted tokens) = t2 :: ts2 →
      ∃ b1 bs,
        segmentRows (assignColumns (filteredSorted tokens)) = (t2 :: b1) :: bs ∧
        (∀ v ∈ b1, rowTrigger v.1 t2.1.top = false) ∧
        segOK t2.1.top bs := by
  refine ⟨segmentRows_join _, ?_⟩
  intro t2 ts2 heq
  have ht2mem : t2.1 ∈ filteredSorted tokens := by
    have : t2 ∈ assignColumns (filteredSorted tokens) := by
      rw [heq]; simp
    unfold assignColumns at this
    obtain ⟨w, hw, hw2⟩ := List.mem_map.mp this
    rw [← hw2]
    exact hw
  have hh : 0 < t2.1.height := hpos t2.1 (mem_filteredSorted tokens t2.1 ht2mem).1
  have hnotr : ¬ rowTrigger t2.1 t2.1.top = true := by
    unfold rowTrigger
    simp only [decide_eq_true_eq, not_lt]
    nlinarith
  rw [heq]
  simp only [segmentRows]
  rw [segAux_eq_segD (t2 :: ts2) [] [] t2.1.top]
  have hsegD : segD t2.1.top (t2 :: ts2) =
      (t2 :: (segD t2.1.top ts2).1, (segD t2.1.top ts2).2) := by
    simp only [segD, hnotr, if_neg, Bool.false_eq_true, not_false_iff]
  refine ⟨(segD t2.1.top ts2).1, (segD t2.1.top ts2).2, ?_, ?_, ?_⟩
  · rw [hsegD]
    unfold flushRow
    simp
  · intro v hv
    have hfst := (segD_ok (t2 :: ts2) t2.1.top).1
    rw [hsegD] at hfst
    exact hfst v (by simp [hv])
  · have hsnd := (segD_ok (t2 :: ts2) t2.1.top).2
    rw [hsegD] at hsnd
    exact hsnd

/-- C7 witness: the partition property on the four-token scenario. -/
theorem C7_row_segmentation_witness :
    (segmentRows (assignColumns (filteredSorted [tokA, tokB, tokC, tokD]))).flatten =
      assignColumns (filteredSorted [tokA, tokB, tokC, tokD]) :=
  (C7_row_segmentation [tokA, tokB, tokC, tokD] (by with_unfolding_all decide)).1

/-- Writing a cell never changes the row's width. -/
theorem setCell_length (r : List String) (i : Nat) (s : String) :
    (setCell r i s).length = r.length := by
  unfold setCell
  by_cases h : i < r.length
  · rw [dif_pos h]
    by_cases hc : r.get ⟨i, h⟩ = ""
    · rw [if_pos hc]; simp
    · rw [if_neg hc]; simp
  · rw [dif_neg h]

/-- Appending a space-separated word to a non-empty prefix stays non-empty. -/
theorem append_space_ne_empty (a s : String) : a ++ " " ++ s ≠ "" := by
  intro h
  have h2 := congrArg String.length h
  rw [String.length_append, String.length_append] at h2
  have hsp : (" " : String).length = 1 := rfl
  have hem : ("" : String).length = 0 := rfl
  omega

/-- A non-empty cell survives any further cell write. -/
theorem setCell_preserves (r : List String) (i : Nat) (s : String) (j : Nat)
    (h : ((r[j]?).getD "") ≠ "") :
    ∃ k : Nat, (((setCell r i s)[k]?).getD "") ≠ "" := by
  unfold setCell
  by_cases hi : i < r.length
  · rw [dif_pos hi]
    by_cases hc : r.get ⟨i, hi⟩ = ""
    · rw [if_pos hc]
      refine ⟨j, ?_⟩
      have hij : i ≠ j := by
        intro he
        subst he
        rw [List.getElem?_eq_getElem hi] at h
        apply h
        simp only [Option.getD_some]
        exact hc
      rw [List.getElem?_set_ne hij]
      exact h
    · rw [if_neg hc]
      refine ⟨i, ?_⟩
      rw [List.getElem?_set_self hi]
      simp only [Option.getD_some]
      exact append_space_ne_empty _ s
  · rw [dif_neg hi]
    exact ⟨j, h⟩

/-- Writing a non-blank word inside bounds leaves some non-empty cell. -/
theorem setCell_writes (r : List String) (i : Nat) (s : String)
    (hi : i < r.length) (hs : s ≠ "") :
    ∃ k : Nat, (((setCell r i s)[k]?).getD "") ≠ "" := by
  unfold setCell
  rw [dif_pos hi]
  by_cases hc : r.get ⟨i, hi⟩ = ""
  · rw [if_pos hc]
    refine ⟨i, ?_⟩
    rw [List.getElem?_set_self hi]
    simpa using hs
  · rw [if_neg hc]
    refine ⟨i, ?_⟩
    rw [List.getElem?_set_self hi]
    simp only [Option.getD_some]
    exact append_space_ne_empty _ s

/-- Folding cell writes over a bucket leaves a non-empty cell as soon as the
initial row has one or some bucket token is in range with non-blank text. -/
theorem foldl_setCell_exists :
    ∀ (ws : List Tok2) (r : List String),
      ((∃ j : Nat, ((r[j]?).getD "") ≠ "") ∨
        (∃ w ∈ ws, w.2 < r.length ∧ w.1.text ≠ "")) →
      ∃ j : Nat, (((ws.foldl (fun r2 w => setCell r2 w.2 w.1.text) r)[j]?).getD "") ≠ "" := by
  intro ws
  induction ws with
  | nil =>
    intro r h
    rcases h with h | h
    · simpa using h
    · simp at h
  | cons w ws ih =>
    intro r h
    simp only [List.foldl_cons]
    apply ih
    rcases h with ⟨j, hj⟩ | ⟨w2, hw2, hlt, htext⟩
    · exact Or.inl (setCell_preserves r w.2 w.1.text j hj)
    · rcases List.mem_cons.mp hw2 with rfl | htail
      · exact Or.inl (setCell_writes r w2.2 w2.1.text hlt htext)
      · refine Or.inr ⟨w2, htail, ?_, htext⟩
        rw [setCell_length]
        exact hlt

/-- A token whose stripped text is non-blank has non-empty text. -/
theorem text_ne_empty_of_tokenKeep (t : WordToken) (h : tokenKeep t = true) :
    t.text ≠ "" := by
  unfold tokenKeep at h
  rw [Bool.and_eq_true, decide_eq_true_eq, decide_eq_true_eq] at h
  intro he
  apply h.2
  rw [he]
  rfl

/-- C10: every row of a returned table contains at least one non-empty cell:
rows come from non-empty buckets of filtered tokens, each of which has a
valid column index and non-blank text and writes its text into a cell. -/
theorem C10_row_has_nonempty_cell (tokens : List WordToken)
    (t : List (List String)) (h : extract_table_from_image tokens = some t) :
    ∀ r ∈ t, ∃ c ∈ r, c ≠ "" := by
  obtain ⟨ht, _, _, hdata⟩ := extract_some_inv tokens t h
  subst ht
  intro r hr
  obtain ⟨r0, hr0, rfl⟩ := List.mem_map.mp hr
  unfold tableGrid at hr0
  obtain ⟨b, hb, rfl⟩ := List.mem_map.mp hr0
  have hbne := segmentRows_bucket_ne_nil _ b hb
  have hsub := segmentRows_bucket_subset _ b hb
  have hcc : columnCenters (filteredSorted tokens) ≠ [] :=
    columnCenters_ne_nil _ hdata
  obtain ⟨u, hu⟩ := List.exists_mem_of_ne_nil b hbne
  have humem : u ∈ assignColumns (filteredSorted tokens) := hsub u hu
  have hidx : u.2 < (columnCenters (filteredSorted tokens)).length := by
    unfold assignColumns at humem
    obtain ⟨w, _, rfl⟩ := List.mem_map.mp humem
    exact argminAbs_lt _ _ hcc
  have htext : u.1.text ≠ "" := by
    apply text_ne_empty_of_tokenKeep
    unfold assignColumns at humem
    obtain ⟨w, hw, rfl⟩ := List.mem_map.mp humem
    exact (mem_filteredSorted tokens w hw).2
  have hex := foldl_setCell_exists b
    (List.replicate (columnCenters (filteredSorted tokens)).length "")
    (Or.inr ⟨u, hu, by simpa using hidx, htext⟩)
  obtain ⟨j, hj⟩ := hex
  unfold buildRow
  cases hjq : (b.foldl (fun r2 w => setCell r2 w.2 w.1.text)
      (List.replicate (columnCenters (filteredSorted tokens)).length ""))[j]? with
  | none => rw [hjq] at hj; simp at hj
  | some c =>
    rw [hjq] at hj
    simp only [Option.getD_some] at hj
    refine ⟨c, ?_, hj⟩
    unfold padRow
    exact List.mem_append_left _ (List.getElem?_mem hjq)

/-- C10 witness: the first row of the four-token scenario's table has a
non-empty cell. -/
theorem C10_row_has_nonempty_cell_witness :
    extract_table_from_image [tokA, tokB, tokC, tokD] =
      some [["A", "B"], ["C", "D"]] ∧
    ∃ c ∈ (["A", "B"] : List String), c ≠ "" :=
  ⟨by with_unfolding_all decide,
   C10_row_has_nonempty_cell [tokA, tokB, tokC, tokD] [["A", "B"], ["C", "D"]]
     (by with_unfolding_all decide) ["A", "B"] (by simp)⟩
